import Mathlib

/-!
Verification of the adaptive retrieval router of the document Q&A backend:
hybrid search RRF fusion (`search/multi_document_search.py`,
`agent/short_path.py`), probe signal computation (`agent/smart_probe.py`),
routing and escalation (`agent/smart_orchestrator.py`,
`agent/smart_routing_config.py`), context/token budget management
(`agent/token_manager.py`) and single-document context formatting
(`search/single_document_search.py`).

Python strings are embedded as `List Char`, Python floats as `ℚ`
(all constants appearing in the code are exactly representable),
database ids as `ℤ`, and Python dicts keyed in insertion order as
association lists.  Results of external collaborators (the segment store,
the embedding service) are passed to the embedded functions as arguments.
-/

namespace RouterVerify

/-! ### Generic list helpers (Python string/dict primitives) -/

/-- `startsWithSeq needle s` : `needle` is a prefix of `s` (Python `str.startswith`). -/
def startsWithSeq : List Char → List Char → Bool
  | [], _ => true
  | _ :: _, [] => false
  | a :: as_, b :: bs => a = b && startsWithSeq as_ bs

/-- Python's substring test `needle in s`. -/
def containsSeq (needle : List Char) : List Char → Bool
  | [] => startsWithSeq needle []
  | c :: rest => startsWithSeq needle (c :: rest) || containsSeq needle rest

/-- Number of (possibly overlapping) occurrences of `needle` in `s`:
the spec-side notion of "occurrences of words" used to compare against the
code's distinct-indicator count. -/
def countOccurrences (needle : List Char) : List Char → ℕ
  | [] => if startsWithSeq needle [] then 1 else 0
  | c :: rest => (if startsWithSeq needle (c :: rest) then 1 else 0) + countOccurrences needle rest

/-- First-occurrence deduplication: the key order of a Python dict built by
inserting elements of `l` left to right. -/
def firstKeys {α : Type} [DecidableEq α] : List α → List α
  | [] => []
  | a :: l => a :: (firstKeys l).filter (fun x => x ≠ a)

/-- Python `str.lower()` (ASCII usage). -/
def toLowerList (s : List Char) : List Char := s.map Char.toLower

/-- Python `str.strip()`. -/
def pyStrip (s : List Char) : List Char :=
  ((s.dropWhile Char.isWhitespace).reverse.dropWhile Char.isWhitespace).reverse

/-- Python `"\n".join(parts)`. -/
def joinNewline : List (List Char) → List Char
  | [] => []
  | [p] => p
  | p :: rest => p ++ '\n' :: joinNewline rest

/-! ### Query pattern detection (`smart_probe._detect_query_patterns`)

The Python code runs `re.search(pattern, query, re.IGNORECASE)` for a fixed
list of patterns.  Each concrete regex is embedded as a deterministic scan:
`scanWithPrev` tries a pattern predicate at every position, feeding it the
previous character so `\b` word boundaries can be checked. -/

/-- Python regex `\w` (ASCII usage): letters, digits, underscore. -/
def isWordChar (c : Char) : Bool := c.isAlphanum || c = '_'

/-- Try predicate `p` at every suffix of the input, tracking the previous
character (`none` at the start of the string); models `re.search`. -/
def scanWithPrev (p : Option Char → List Char → Bool) : Option Char → List Char → Bool
  | prev, [] => p prev []
  | prev, c :: rest => p prev (c :: rest) || scanWithPrev p (some c) rest

def searchPat (p : Option Char → List Char → Bool) (s : List Char) : Bool :=
  scanWithPrev p none s

/-- `\b` before the match position: start of string or previous char not `\w`. -/
def boundaryBefore : Option Char → Bool
  | none => true
  | some c => !isWordChar c

/-- `\b` after the match: end of string or next char not `\w`. -/
def boundaryAfterOk : List Char → Bool
  | [] => true
  | c :: _ => !isWordChar c

/-- Case-insensitive literal prefix match; `w` is given lowercase.  Returns
the remainder of the string after the literal. -/
def ciMatch : List Char → List Char → Option (List Char)
  | [], s => some s
  | _ :: _, [] => none
  | w :: ws, c :: cs => if c.toLower = w then ciMatch ws cs else none

/-- Regex `q[^q]*q` (a quoted span): at a position, the quote char followed
eventually by another quote char. -/
def quotedPat (q : Char) (_prev : Option Char) (s : List Char) : Bool :=
  match s with
  | c :: rest => c = q && rest.any (fun d => d = q)
  | [] => false

/-- Tail of `\b(?:id|ID|identifier)\s*[:\-]?\s*\w+` after the keyword:
`\s*`, an optional `:` or `-`, `\s*`, then at least one word char.  The
character classes are disjoint, so the greedy scan is equivalent. -/
def idTail (rest : List Char) : Bool :=
  let r1 := rest.dropWhile Char.isWhitespace
  let r2 := match r1 with
    | c :: t => if c = ':' || c = '-' then t else r1
    | [] => r1
  let r3 := r2.dropWhile Char.isWhitespace
  match r3 with
  | c :: _ => isWordChar c
  | [] => false

def idPattern (prev : Option Char) (s : List Char) : Bool :=
  boundaryBefore prev &&
    [['i','d'], ['i','d'], ['i','d','e','n','t','i','f','i','e','r']].any (fun w =>
      match ciMatch w s with
      | some rest => idTail rest
      | none => false)

/-- `\b(?:w1|w2|...)\s+\d+` : keyword, one or more whitespace, one or more digits. -/
def wordThenNumber (alts : List (List Char)) (prev : Option Char) (s : List Char) : Bool :=
  boundaryBefore prev &&
    alts.any (fun w =>
      match ciMatch w s with
      | some rest =>
        match rest with
        | c :: _ =>
          c.isWhitespace &&
            (match rest.dropWhile Char.isWhitespace with
             | d :: _ => d.isDigit
             | [] => false)
        | [] => false
      | none => false)

/-- `\b(?:w1|w2|...)\b`. -/
def wordBounded (alts : List (List Char)) (prev : Option Char) (s : List Char) : Bool :=
  boundaryBefore prev &&
    alts.any (fun w =>
      match ciMatch w s with
      | some rest => boundaryAfterOk rest
      | none => false)

/-- `\b\d{4}\b` (years). -/
def yearPat (prev : Option Char) (s : List Char) : Bool :=
  boundaryBefore prev &&
    match s with
    | a :: b :: c :: d :: rest =>
      a.isDigit && b.isDigit && c.isDigit && d.isDigit && boundaryAfterOk rest
    | _ => false

def sectionWords : List (List Char) := [['s','e','c','t','i','o','n'], ['p','a','g','e'], ['p','a','r','a','g','r','a','p','h']]
def articleWords : List (List Char) := [['a','r','t','i','c','l','e'], ['c','l','a','u','s','e'], ['i','t','e','m']]
def temporalWords1 : List (List Char) := ["before".toList, "after".toList, "since".toList, "until".toList, "during".toList]
def temporalWords2 : List (List Char) := ["compare".toList, "comparison".toList, "versus".toList, "vs".toList, "difference".toList]
def temporalWords3 : List (List Char) := ["earlier".toList, "later".toList, "previous".toList, "next".toList, "recent".toList]
def temporalWords4 : List (List Char) := ["first".toList, "last".toList, "initial".toList, "final".toList]
def temporalWords5 : List (List Char) := ["older".toList, "newer".toList, "latest".toList, "earliest".toList]
def monthWords : List (List Char) := ["january".toList, "february".toList, "march".toList, "april".toList, "may".toList, "june".toList, "july".toList, "august".toList, "september".toList, "october".toList, "november".toList, "december".toList]

/-- `_detect_query_patterns(query)`: `(has_quotes_or_ids, has_compare_temporal)`. -/
def detectQueryPatterns (query : List Char) : Bool × Bool :=
  let hasQuotesOrIds :=
    searchPat (quotedPat (Char.ofNat 34)) query ||
    searchPat (quotedPat (Char.ofNat 39)) query ||
    searchPat idPattern query ||
    searchPat (wordThenNumber sectionWords) query ||
    searchPat (wordThenNumber articleWords) query
  let hasCompareTemporal :=
    searchPat (wordBounded temporalWords1) query ||
    searchPat (wordBounded temporalWords2) query ||
    searchPat (wordBounded temporalWords3) query ||
    searchPat (wordBounded temporalWords4) query ||
    searchPat (wordBounded temporalWords5) query ||
    searchPat yearPat query ||
    searchPat (wordBounded monthWords) query
  (hasQuotesOrIds, hasCompareTemporal)

/-! ### Routing configuration (`smart_routing_config.py`, `config.py` defaults) -/

/-- The six named router weights (Python: a dict with these fixed keys). -/
structure RouterWeights where
  avg_vec_sim : ℚ
  fts_hit_rate : ℚ
  top_doc_share : ℚ
  unique_docs : ℚ
  has_quotes_or_ids : ℚ
  has_compare_temporal_conditions : ℚ
deriving DecidableEq

structure RouterConfig where
  weights : RouterWeights
  threshold : ℚ
deriving DecidableEq

structure EscalationConfig where
  min_strong_segments : ℕ
  max_distinct_docs : ℕ
  min_avg_vec_sim : ℚ
  min_fts_hit_rate : ℚ
deriving DecidableEq

/-- Hardcoded defaults (`config.RouterConfig.default` / the
`smart_routing_config` fallback): 0.9, 0.5, 0.8, -0.7, -0.1, -0.6, threshold 0.5. -/
def defaultRouterConfig : RouterConfig :=
  ⟨⟨9/10, 1/2, 4/5, -(7/10), -(1/10), -(3/5)⟩, 1/2⟩

/-- Defaults: min_strong_segments 2, max_distinct_docs 4,
min_avg_vec_sim 0.60, min_fts_hit_rate 0.10. -/
def defaultEscalationConfig : EscalationConfig := ⟨2, 4, 3/5, 1/10⟩

/-- `SmartRoutingConfig` with its default field values. -/
structure SmartRoutingConfig where
  router : RouterConfig
  escalation : EscalationConfig
  probe_doc_limit : ℕ := 10
  probe_candidates_per_type : ℕ := 3
  short_top_docs : ℕ := 15
  short_per_doc : ℕ := 3
  short_vector_limit : ℕ := 20
  short_text_limit : ℕ := 20
  short_alpha : ℚ := 3/5
  long_max_subqueries : ℕ := 3
  long_max_steps : ℕ := 5
  long_budget_tokens : ℕ := 8000
  long_budget_time_sec : ℕ := 30
  max_response_tokens : ℕ := 4000
  max_context_tokens : ℕ := 12000
  max_context_chars : ℕ := 48000
deriving DecidableEq

/-- `DEFAULT_CONFIG`. -/
def defaultSmartConfig : SmartRoutingConfig :=
  { router := defaultRouterConfig, escalation := defaultEscalationConfig }

/-! ### Probe signals (`smart_probe.py`) -/

/-- Row of the document prefilter query. -/
structure DocRow where
  id : ℤ
  title : List Char
  similarity_score : ℚ
deriving DecidableEq

/-- Row of the segment-level sampling queries (vector or FTS candidate). -/
structure SegCand where
  id : ℤ
  document_id : ℤ
  segment_ordinal : ℤ
  text : List Char
  title : List Char
  score : ℚ
deriving DecidableEq

structure ProbeSignals where
  avg_vec_sim : ℚ
  fts_hit_rate : ℚ
  top_doc_share : ℚ
  unique_docs : ℕ
  has_quotes_or_ids : Bool
  has_compare_temporal_conditions : Bool
  doc_counts : List (ℤ × ℕ)
  total_candidates : ℕ
  vector_candidates : ℕ
  fts_candidates : ℕ
deriving DecidableEq

/-- `compute_probe_signals(query, config)`.  The responses of the external
store calls (`_prefilter_documents`, `_sample_candidates_vector`,
`_sample_candidates_fts`) are passed in as `topDocs`, `vectorCands`,
`ftsCands`; the SQL `LIMIT` clauses bound their lengths, which theorems
take as hypotheses where needed. -/
def computeProbeSignals (query : List Char) (topDocs : List DocRow)
    (vectorCands ftsCands : List SegCand) (config : SmartRoutingConfig) : ProbeSignals :=
  if topDocs.isEmpty then
    -- "No documents found - return minimal signals"
    let p := detectQueryPatterns query
    { avg_vec_sim := 0, fts_hit_rate := 0, top_doc_share := 1, unique_docs := 0,
      has_quotes_or_ids := p.1, has_compare_temporal_conditions := p.2,
      doc_counts := [], total_candidates := 0, vector_candidates := 0, fts_candidates := 0 }
  else
    let allCands := vectorCands ++ ftsCands
    let avgRaw : ℚ :=
      if vectorCands.isEmpty then 0
      else (vectorCands.map (fun c => 1 - c.score)).sum / vectorCands.length
    let avg := max 0 (min 1 avgRaw)
    let totalPossibleFts := topDocs.length * config.probe_candidates_per_type
    let rate : ℚ := (ftsCands.length : ℚ) / ((max 1 totalPossibleFts : ℕ) : ℚ)
    let ids := allCands.map (fun c => c.document_id)
    let keys := firstKeys ids
    let counts := keys.map (fun d => (d, ids.count d))
    let top : ℚ :=
      if counts.isEmpty then 1
      else (((counts.map (fun p => p.2)).foldr max 0 : ℕ) : ℚ) / (((counts.map (fun p => p.2)).sum : ℕ) : ℚ)
    let p := detectQueryPatterns query
    { avg_vec_sim := avg, fts_hit_rate := rate, top_doc_share := top,
      unique_docs := keys.length, has_quotes_or_ids := p.1,
      has_compare_temporal_conditions := p.2,
      doc_counts := counts, total_candidates := allCands.length,
      vector_candidates := vectorCands.length, fts_candidates := ftsCands.length }

/-- `compute_routing_score(signals, config)`: linear weighted sum. -/
def computeRoutingScore (s : ProbeSignals) (c : RouterConfig) : ℚ :=
  c.weights.avg_vec_sim * s.avg_vec_sim +
  c.weights.fts_hit_rate * s.fts_hit_rate +
  c.weights.top_doc_share * s.top_doc_share +
  c.weights.unique_docs * ((s.unique_docs : ℚ) / 10) +
  c.weights.has_quotes_or_ids * (if s.has_quotes_or_ids then 1 else 0) +
  c.weights.has_compare_temporal_conditions * (if s.has_compare_temporal_conditions then 1 else 0)

inductive Path where
  | SHORT
  | LONG
deriving DecidableEq

/-- The routing branch of `smart_handle_message`:
`score >= config.router.threshold` selects SHORT, else LONG. -/
def routeDecision (s : ProbeSignals) (c : RouterConfig) : Path :=
  if c.threshold ≤ computeRoutingScore s c then Path.SHORT else Path.LONG

/-! ### Hybrid search and RRF fusion (`multi_document_search._hybrid_rerank`,
`short_path._hybrid_rerank_optimized`) -/

/-- One row of a vector/text segment search (the Python result dict). -/
structure SearchHit where
  id : ℤ
  document_id : ℤ
  segment_ordinal : ℤ
  text : List Char
  title : List Char
  score : ℚ
deriving DecidableEq

/-- A search hit enriched by the fusion step with `rrf_score`,
`vector_rank`, `text_rank`. -/
structure FusedResult where
  hit : SearchHit
  rrf_score : ℚ
  vector_rank : ℕ
  text_rank : ℕ
deriving DecidableEq

/-- Lookup in the Python dict `{r['id']: (i + 1, r) for i, r in enumerate(hits)}`:
scans left to right, a later binding for the same id overwrites an earlier one. -/
def dictGetAux (sid : ℤ) : ℕ → List SearchHit → Option (ℕ × SearchHit) → Option (ℕ × SearchHit)
  | _, [], acc => acc
  | i, h :: rest, acc =>
    dictGetAux sid (i + 1) rest (if h.id = sid then some (i + 1, h) else acc)

def dictGet (hits : List SearchHit) (sid : ℤ) : Option (ℕ × SearchHit) :=
  dictGetAux sid 0 hits none

/-- The RRF formula with `k = 60`:
`vector_weight / (k + vector_rank) + text_weight / (k + text_rank)`. -/
def rrfScore (wv wt : ℚ) (vr tr : ℕ) : ℚ :=
  wv / (60 + (vr : ℚ)) + wt / (60 + (tr : ℚ))

/-- The rank used by the fusion: position from the dict, or `len + 1` if absent. -/
def rankOf (hits : List SearchHit) (sid : ℤ) : ℕ :=
  match dictGet hits sid with
  | some p => p.1
  | none => hits.length + 1

/-- The body of the loop `for seg_id in all_ids` for one segment id: compute
both ranks, the RRF score, and attach them to the underlying result object
(`vector_map.get(...)[1] or text_map.get(...)[1]`, preferring the vector hit;
`none` only if the id is in neither map). -/
def fuseOne (vres tres : List SearchHit) (wv wt : ℚ) (sid : ℤ) : Option FusedResult :=
  let vr := rankOf vres sid
  let tr := rankOf tres sid
  match ((dictGet vres sid).map Prod.snd).orElse (fun _ => (dictGet tres sid).map Prod.snd) with
  | some h => some ⟨h, rrfScore wv wt vr tr, vr, tr⟩
  | none => none

/-- The fused list before sorting.
`all_ids = set(vector_map.keys()) | set(text_map.keys())`, iterated in
first-occurrence order. -/
def fusedPre (vres tres : List SearchHit) (wv wt : ℚ) : List FusedResult :=
  (firstKeys ((vres.map (fun h => h.id)) ++ (tres.map (fun h => h.id)))).filterMap
    (fuseOne vres tres wv wt)

/-- Ordering used by `combined_results.sort(key=lambda x: x['rrf_score'], reverse=True)`. -/
def scoreOrder (a b : FusedResult) : Prop := b.rrf_score ≤ a.rrf_score

instance : DecidableRel scoreOrder := fun a b =>
  inferInstanceAs (Decidable (b.rrf_score ≤ a.rrf_score))

instance : IsTotal FusedResult scoreOrder := ⟨fun a b => le_total b.rrf_score a.rrf_score⟩

instance : IsTrans FusedResult scoreOrder := ⟨fun _ _ _ h1 h2 => le_trans h2 h1⟩

/-- `_hybrid_rerank(vector_results, text_results, vector_weight, text_weight)`
(and `_hybrid_rerank_optimized` with `wv = alpha`, `wt = 1 - alpha`): RRF fuse
then stable sort descending by `rrf_score`. -/
def hybridRerank (vres tres : List SearchHit) (wv wt : ℚ) : List FusedResult :=
  List.insertionSort scoreOrder (fusedPre vres tres wv wt)

/-- rrf score of the fused entry for a given segment id, if present. -/
def findScore (l : List FusedResult) (sid : ℤ) : Option ℚ :=
  (l.find? (fun r => r.hit.id = sid)).map (fun r => r.rrf_score)

/-! ### Grouping by document (`_group_results_by_document`,
`_group_results_optimized`) and snippet format -/

/-- The snippet f-string of the two grouping functions:
`f"[§{result['segment_ordinal']}] {result['text']}"`. -/
def groupSnippet (ordinal : ℤ) (text : List Char) : List Char :=
  '[' :: '§' :: ((toString ordinal).toList ++ ']' :: ' ' :: text)

/-- The snippet format the spec mandates:
`[§<ordinal>] <segment text>` with `§` = U+00A7. -/
def specCitationSnippet (ordinal : ℤ) (text : List Char) : List Char :=
  '[' :: '§' :: ((toString ordinal).toList ++ ']' :: ' ' :: text)

/-- One entry of the `doc_groups` insertion-ordered dict. -/
structure DocGroup where
  doc_id : ℤ
  title : List Char
  snippets : List (List Char)
deriving DecidableEq

/-- Body of the grouping loop for one result: create the doc's group on first
sight (at the end, preserving insertion order), then append the snippet if the
group is still below `max_snippets_per_doc`. -/
def groupStep (maxSnip : ℕ) (groups : List DocGroup) (r : FusedResult) : List DocGroup :=
  let groups1 :=
    if groups.any (fun g => g.doc_id = r.hit.document_id) then groups
    else groups ++ [⟨r.hit.document_id, r.hit.title, []⟩]
  groups1.map (fun g =>
    if g.doc_id = r.hit.document_id ∧ g.snippets.length < maxSnip then
      { g with snippets := g.snippets ++ [groupSnippet r.hit.segment_ordinal r.hit.text] }
    else g)

structure ContextBlock where
  document_id : ℤ
  title : List Char
  snippets : List (List Char)
deriving DecidableEq

structure ContextBundle where
  query : List Char
  context_text : List Char
  blocks : List ContextBlock
deriving DecidableEq

/-- `_group_results_by_document(results, max_docs, max_snippets_per_doc)`
(and `_group_results_optimized` with the limits from the config): group in
score order, keep the first `max_docs` documents, drop empty groups. -/
def groupByDocument (results : List FusedResult) (maxDocs maxSnip : ℕ) : List ContextBlock :=
  let groups := results.foldl (groupStep maxSnip) []
  (groups.take maxDocs).filterMap (fun g =>
    if g.snippets.isEmpty then none
    else some ⟨g.doc_id, g.title, g.snippets⟩)

/-- Insertion-ordered key accumulation of a Python dict: processing `ds` left
to right, a key is appended on first sight.  Used to characterise the key
order of `doc_groups`. -/
def accKeys (ks : List ℤ) : List ℤ → List ℤ
  | [] => ks
  | d :: ds => accKeys (if d ∈ ks then ks else ks ++ [d]) ds

/-- `_format_context_text(blocks)` parts list: `"{title}"`, the snippets, and
an empty line per block. -/
def contextParts (blocks : List ContextBlock) : List (List Char) :=
  blocks.flatMap (fun b => (('{' :: (b.title ++ ['}'])) :: b.snippets) ++ [[]])

/-- `"\n".join(context_parts).strip()`. -/
def formatContextText (blocks : List ContextBlock) : List Char :=
  pyStrip (joinNewline (contextParts blocks))

/-! ### Single-document context formatting (`single_document_search.py`) -/

structure SingleDocumentResult where
  segment_id : ℤ
  segment_ordinal : ℤ
  text : List Char
  similarity_score : ℚ
  text_score : Option ℚ
  rrf_score : Option ℚ
deriving DecidableEq

/-- The snippet f-string of `_format_single_document_context`.  The source file
contains the two Thai characters U+0E22 U+0E07 ("ยง": mojibake of `§`) instead
of the section sign. -/
def singleDocSnippet (ordinal : ℤ) (text : List Char) : List Char :=
  '[' :: 'ย' :: 'ง' :: ((toString ordinal).toList ++ ']' :: ' ' :: text)

/-- `_format_single_document_context(results, document_title)`. -/
def formatSingleDocumentContext (results : List SingleDocumentResult) (title : List Char) : List Char :=
  if results.isEmpty then
    ('{' :: (title ++ ['}'])) ++ '\n' :: "No relevant content found.".toList
  else
    joinNewline (('{' :: (title ++ ['}'])) ::
      results.map (fun r => singleDocSnippet r.segment_ordinal r.text))

/-! ### SHORT-path result and escalation (`smart_orchestrator.should_escalate_from_short`) -/

/-- The `debug_info` dict produced by `run_short_path`. -/
structure ShortDebugInfo where
  total_docs : ℕ
  total_segments : ℕ
  has_context : Bool
  context_length : ℕ
deriving DecidableEq

structure ShortPathResult where
  answer : List Char
  context : Option ContextBundle
  debug_info : ShortDebugInfo
  success : Bool
  error : Option (List Char)
deriving DecidableEq

/-- The fixed conflict-indicator word list of `should_escalate_from_short`. -/
def conflictIndicators : List (List Char) :=
  ["however".toList, "but".toList, "although".toList, "contradicts".toList,
   "differs".toList, "opposed".toList]

/-- Number of distinct indicators whose text occurs (substring test,
`indicator in context_text`) in the lowercased context; the code's
`sum(1 for indicator in conflict_indicators if indicator in context_text)`. -/
def conflictIndicatorCount (contextText : List Char) : ℕ :=
  (conflictIndicators.filter (fun w => containsSeq w (toLowerList contextText))).length

/-- Total occurrences of the indicator words, as the spec sentence
"contains ≥2 occurrences of words from the fixed set" reads; defined from the
spec's words to compare against `conflictIndicatorCount`. -/
def specConflictOccurrences (contextText : List Char) : ℕ :=
  (conflictIndicators.map (fun w => countOccurrences w (toLowerList contextText))).sum

/-- `should_escalate_from_short(short_result, signals, config)`: the reasons
list (messages abbreviated from the Python f-strings, which only add the
numbers for logging). -/
def escalationReasons (r : ShortPathResult) (signals : ProbeSignals)
    (config : SmartRoutingConfig) (ctx : ContextBundle) : List (List Char) :=
  (if r.debug_info.total_segments < config.escalation.min_strong_segments then
    ["insufficient segments".toList] else []) ++
  (if r.debug_info.total_docs > config.escalation.max_distinct_docs then
    ["too many docs".toList] else []) ++
  (if signals.avg_vec_sim < config.escalation.min_avg_vec_sim then
    ["low vector similarity".toList] else []) ++
  (if signals.fts_hit_rate < config.escalation.min_fts_hit_rate then
    ["low FTS hit rate".toList] else []) ++
  (if 2 ≤ conflictIndicatorCount ctx.context_text then
    ["potential conflicts detected".toList] else [])

/-- `should_escalate_from_short`: early `True` on failure or missing context,
otherwise escalate iff the reasons list is non-empty. -/
def shouldEscalateFromShort (r : ShortPathResult) (signals : ProbeSignals)
    (config : SmartRoutingConfig) : Bool :=
  match r.success, r.context with
  | false, _ => true
  | true, none => true
  | true, some ctx => 0 < (escalationReasons r signals config ctx).length

/-- Context text carried by a SHORT-path result (empty when there is none). -/
def contextTextOf (r : ShortPathResult) : List Char :=
  match r.context with
  | some ctx => ctx.context_text
  | none => []

/-! ### Token management (`token_manager.py`) -/

/-- Python `int(x)` on a float: truncation toward zero. -/
def truncToZero (q : ℚ) : ℤ := if q < 0 then -(⌊-q⌋) else ⌊q⌋

/-- The snippet-keeping loop of `truncate_context_by_tokens`: keep whole
snippets while within the block budget; on the first overflow, keep a
truncated copy ending in `...` if more than 100 characters of budget remain,
then stop. -/
def keepSnippets (budget : ℤ) (used : ℤ) : List (List Char) → List (List Char)
  | [] => []
  | s :: rest =>
    if (used + (s.length : ℤ)) ≤ budget then
      s :: keepSnippets budget (used + (s.length : ℤ)) rest
    else
      let remInBudget := budget - used
      if 100 < remInBudget then [(s.take (remInBudget - 3).toNat) ++ "...".toList]
      else []

/-- `truncate_context_by_tokens(context, config)`. -/
def truncateContextByTokens (context : ContextBundle) (config : SmartRoutingConfig) : ContextBundle :=
  let maxChars := config.max_context_chars
  if context.context_text.length ≤ maxChars then context
  else
    let titleOverhead : ℕ := (context.blocks.map (fun b => b.title.length + 4)).sum
    let remaining : ℤ := (maxChars : ℤ) - (titleOverhead : ℤ)
    let totalSnippetChars : ℕ :=
      (context.blocks.map (fun b => (b.snippets.map List.length).sum)).sum
    let truncatedBlocks := context.blocks.filterMap (fun b =>
      let blockChars : ℕ := (b.snippets.map List.length).sum
      let budget : ℤ :=
        if 0 < totalSnippetChars then
          truncToZero (((blockChars : ℚ) / (totalSnippetChars : ℚ)) * (remaining : ℚ))
        else Int.fdiv remaining (context.blocks.length : ℤ)
      let kept := keepSnippets budget 0 b.snippets
      if kept.isEmpty then none else some { b with snippets := kept })
    { query := context.query,
      context_text := formatContextText truncatedBlocks,
      blocks := truncatedBlocks }

/-! ### JSON repair (`token_manager.ensure_json_validity`)

`json.loads` is standard-library code, not part of the repository.
The validity check below is modelled from the spec: a recogniser for the
JSON grammar accepted by Python's `json.loads` (objects, arrays, strings
with escapes and no raw control characters, numbers, `true`/`false`/`null`,
plus Python's `NaN`/`Infinity`/`-Infinity` extensions); it returns whether
the string parses. -/

def jsonWsChar (c : Char) : Bool := c = ' ' || c = '\t' || c = '\n' || c = '\r'

def skipJsonWs (s : List Char) : List Char := s.dropWhile jsonWsChar

def isHexChar (c : Char) : Bool :=
  c.isDigit || ('a' ≤ c && c ≤ 'f') || ('A' ≤ c && c ≤ 'F')

/-- Modelled from the spec: JSON string body after the opening quote. -/
def parseStringBody : List Char → Option (List Char)
  | [] => none
  | c :: rest =>
    if c = Char.ofNat 34 then some rest
    else if c = '\\' then
      match rest with
      | [] => none
      | e :: rest2 =>
        if e = Char.ofNat 34 || e = '\\' || e = '/' || e = 'b' || e = 'f'
            || e = 'n' || e = 'r' || e = 't' then
          parseStringBody rest2
        else if e = 'u' then
          match rest2 with
          | h1 :: h2 :: h3 :: h4 :: rest3 =>
            if isHexChar h1 && isHexChar h2 && isHexChar h3 && isHexChar h4 then
              parseStringBody rest3
            else none
          | _ => none
        else none
    else if c.toNat < 32 then none
    else parseStringBody rest

def expectChars : List Char → List Char → Option (List Char)
  | [], s => some s
  | c :: cs, d :: ds => if d = c then expectChars cs ds else none
  | _ :: _, [] => none

/-- Modelled from the spec: exponent part of a JSON number. -/
def numExp (s : List Char) : Option (List Char) :=
  match s with
  | c :: rest =>
    if c = 'e' || c = 'E' then
      let rest2 := match rest with
        | k :: r2 => if k = '+' || k = '-' then r2 else rest
        | [] => rest
      match rest2 with
      | d :: _ => if d.isDigit then some (rest2.dropWhile Char.isDigit) else none
      | [] => none
    else some s
  | [] => some s

/-- Modelled from the spec: fraction then exponent part of a JSON number. -/
def numFrac (s : List Char) : Option (List Char) :=
  match s with
  | '.' :: rest =>
    (match rest with
     | d :: _ => if d.isDigit then numExp (rest.dropWhile Char.isDigit) else none
     | [] => none)
  | _ => numExp s

/-- Modelled from the spec: a JSON number (optionally signed). -/
def parseNumber (s : List Char) : Option (List Char) :=
  let s1 := match s with
    | c :: rest => if c = '-' then rest else s
    | [] => s
  match s1 with
  | [] => none
  | c :: rest =>
    if c = '0' then numFrac rest
    else if c.isDigit then numFrac (rest.dropWhile Char.isDigit)
    else none

mutual

/-- Modelled from the spec: one JSON value, returning the remainder. -/
def parseVal : ℕ → List Char → Option (List Char)
  | 0, _ => none
  | fuel + 1, s =>
    match s with
    | [] => none
    | c :: rest =>
      if c = Char.ofNat 34 then parseStringBody rest
      else if c = '{' then
        match skipJsonWs rest with
        | [] => none
        | d :: rest1 =>
          if d = '}' then some rest1
          else if d = Char.ofNat 34 then
            match parseStringBody rest1 with
            | some afterKey =>
              (match skipJsonWs afterKey with
               | ':' :: afterColon =>
                 (match parseVal fuel (skipJsonWs afterColon) with
                  | some afterVal => parseMembers fuel (skipJsonWs afterVal)
                  | none => none)
               | _ => none)
            | none => none
          else none
      else if c = '[' then
        match skipJsonWs rest with
        | [] => none
        | d :: rest1 =>
          if d = ']' then some rest1
          else
            match parseVal fuel (d :: rest1) with
            | some afterVal => parseItems fuel (skipJsonWs afterVal)
            | none => none
      else if c = 't' then expectChars ['r','u','e'] rest
      else if c = 'f' then expectChars ['a','l','s','e'] rest
      else if c = 'n' then expectChars ['u','l','l'] rest
      else if c = 'N' then expectChars ['a','N'] rest
      else if c = 'I' then expectChars ['n','f','i','n','i','t','y'] rest
      else if c = '-' then
        match rest with
        | 'I' :: rest2 => expectChars ['n','f','i','n','i','t','y'] rest2
        | _ => parseNumber s
      else if c.isDigit then parseNumber s
      else none

/-- Modelled from the spec: object members after the first, `, pair` or `}`. -/
def parseMembers : ℕ → List Char → Option (List Char)
  | 0, _ => none
  | fuel + 1, s =>
    match s with
    | '}' :: rest => some rest
    | ',' :: rest =>
      (match skipJsonWs rest with
       | d :: rest1 =>
         if d = Char.ofNat 34 then
           match parseStringBody rest1 with
           | some afterKey =>
             (match skipJsonWs afterKey with
              | ':' :: afterColon =>
                (match parseVal fuel (skipJsonWs afterColon) with
                 | some afterVal => parseMembers fuel (skipJsonWs afterVal)
                 | none => none)
              | _ => none)
           | none => none
         else none
       | [] => none)
    | _ => none

/-- Modelled from the spec: array items after the first, `, value` or `]`. -/
def parseItems : ℕ → List Char → Option (List Char)
  | 0, _ => none
  | fuel + 1, s =>
    match s with
    | ']' :: rest => some rest
    | ',' :: rest =>
      (match parseVal fuel (skipJsonWs rest) with
       | some afterVal => parseItems fuel (skipJsonWs afterVal)
       | none => none)
    | _ => none

end

/-- Modelled from the spec: whether `json.loads` accepts the string. -/
def validJson (s : List Char) : Bool :=
  match parseVal (s.length + 1) (skipJsonWs s) with
  | some rest => (skipJsonWs rest).isEmpty
  | none => false

/-- The repair steps of `ensure_json_validity`: strip, drop trailing commas,
close an unclosed quote, then balance brackets and braces by character tally. -/
def repairCandidate (s : List Char) : List Char :=
  let f0 := pyStrip s
  let f1 := ((f0.reverse.dropWhile (fun c => c = ',')).reverse)
  let f2 := ((f1.reverse.dropWhile Char.isWhitespace).reverse)
  let openBraces : ℤ := (f2.count '{' : ℤ) - (f2.count '}' : ℤ)
  let openBrackets : ℤ := (f2.count '[' : ℤ) - (f2.count ']' : ℤ)
  let openQuotes : ℕ := (f2.count (Char.ofNat 34)) % 2
  let f3 := if openQuotes = 1 then f2 ++ [Char.ofNat 34] else f2
  let f4 := f3 ++ List.replicate openBrackets.toNat ']'
  f4 ++ List.replicate openBraces.toNat '}'

/-- `json_str.replace('"', '\\"')`. -/
def escapeQuotes (s : List Char) : List Char :=
  s.flatMap (fun c => if c = Char.ofNat 34 then ['\\', Char.ofNat 34] else [c])

/-- The fixed-shape fallback object of `ensure_json_validity`, carrying the
first 100 characters of the quote-escaped original content. -/
def jsonFallback (s : List Char) : List Char :=
  "\x7b\"error\": \"Response truncated and could not be repaired\", \"partial_content\": \"".toList
    ++ (escapeQuotes s).take 100 ++ "...\"\x7d".toList

/-- `ensure_json_validity(json_str)`. -/
def ensureJsonValidity (s : List Char) : List Char :=
  if validJson s then s
  else if validJson (repairCandidate s) then repairCandidate s
  else jsonFallback s

/-! ## Theorems -/

-- Batteries marks the `Rat` arithmetic primitives `@[irreducible]`, which
-- blocks `decide` on concrete rational computations; the kernel itself
-- reduces them fine.  Restore default reducibility for this file.
attribute [local semireducible] Rat.mul Rat.add Rat.sub Rat.inv

/-! ### C4 — router determinism and monotonicity -/

/-- **C4**: The routing decision is a pure deterministic function of
`(signals, config)`: equal inputs give equal decisions; the decision is
`SHORT` exactly when the weighted score reaches the threshold; and under the
default weights, increasing `avg_vec_sim` while holding every other signal
fixed never flips a SHORT decision to LONG. -/
theorem routing_decision_deterministic_and_monotone :
    (∀ s₁ s₂ : ProbeSignals, ∀ c₁ c₂ : RouterConfig, s₁ = s₂ → c₁ = c₂ →
      routeDecision s₁ c₁ = routeDecision s₂ c₂) ∧
    (∀ (s : ProbeSignals) (c : RouterConfig),
      routeDecision s c = Path.SHORT ↔ c.threshold ≤ computeRoutingScore s c) ∧
    (∀ (s : ProbeSignals) (v : ℚ),
      routeDecision s defaultRouterConfig = Path.SHORT → s.avg_vec_sim ≤ v →
      routeDecision { s with avg_vec_sim := v } defaultRouterConfig = Path.SHORT) := by
  refine ⟨?_, ?_, ?_⟩
  · rintro s _ c _ rfl rfl
    rfl
  · intro s c
    unfold routeDecision
    split_ifs with h <;> simp [h]
  · intro s v hshort hle
    have hs : defaultRouterConfig.threshold ≤ computeRoutingScore s defaultRouterConfig := by
      by_contra hc
      unfold routeDecision at hshort
      rw [if_neg hc] at hshort
      exact absurd hshort (by simp)
    have hmono : computeRoutingScore s defaultRouterConfig ≤
        computeRoutingScore { s with avg_vec_sim := v } defaultRouterConfig := by
      simp only [computeRoutingScore, defaultRouterConfig]
      have h9 : (9 : ℚ)/10 * s.avg_vec_sim ≤ 9/10 * v :=
        mul_le_mul_of_nonneg_left hle (by norm_num)
      linarith
    unfold routeDecision
    rw [if_pos (le_trans hs hmono)]

def sigW : ProbeSignals := ⟨7/10, 1/5, 1, 1, false, false, [], 0, 0, 0⟩

/-- Witness for C4 at a concrete signal vector. -/
theorem routing_decision_monotone_witness :
    routeDecision sigW defaultRouterConfig = Path.SHORT ∧
    routeDecision { sigW with avg_vec_sim := 4/5 } defaultRouterConfig = Path.SHORT :=
  ⟨by decide,
   routing_decision_deterministic_and_monotone.2.2 sigW (4/5) (by decide) (by norm_num [sigW])⟩

/-! ### C10 — fts_hit_rate is bounded by 1/n -/

/-- **C10**: when the prefilter returned `n ≥ 1` documents and the FTS sample
is bounded by `probe_candidates_per_type` (the single SQL `LIMIT` across all
candidate documents), the computed `fts_hit_rate` never exceeds `1/n`; with
the default 10-document prefilter fully populated and the default sample size
3, it never strictly exceeds the default escalation threshold
`min_fts_hit_rate = 0.10`. -/
theorem fts_hit_rate_bound (query : List Char) (topDocs : List DocRow)
    (vcands fcands : List SegCand) (cfg : SmartRoutingConfig)
    (hne : topDocs ≠ [])
    (hlim : fcands.length ≤ cfg.probe_candidates_per_type)
    (hpos : 0 < cfg.probe_candidates_per_type) :
    (computeProbeSignals query topDocs vcands fcands cfg).fts_hit_rate ≤
      1 / (topDocs.length : ℚ) ∧
    (topDocs.length = 10 → cfg.probe_candidates_per_type = 3 →
      (computeProbeSignals query topDocs vcands fcands cfg).fts_hit_rate ≤
        defaultEscalationConfig.min_fts_hit_rate) := by
  have hempty : topDocs.isEmpty = false := by
    simp [List.isEmpty_iff, hne]
  have hn : 0 < topDocs.length := List.length_pos.mpr hne
  have hnp : 0 < topDocs.length * cfg.probe_candidates_per_type := Nat.mul_pos hn hpos
  have hmax : max 1 (topDocs.length * cfg.probe_candidates_per_type) =
      topDocs.length * cfg.probe_candidates_per_type := max_eq_right hnp
  have hrate : (computeProbeSignals query topDocs vcands fcands cfg).fts_hit_rate =
      (fcands.length : ℚ) / ((topDocs.length * cfg.probe_candidates_per_type : ℕ) : ℚ) := by
    simp only [computeProbeSignals, hempty, Bool.false_eq_true, if_false, hmax]
  constructor
  · rw [hrate]
    rw [div_le_div_iff₀ (by positivity) (by exact_mod_cast hn)]
    push_cast
    have hL : (fcands.length : ℚ) ≤ (cfg.probe_candidates_per_type : ℚ) := by
      exact_mod_cast hlim
    have hn' : (0 : ℚ) ≤ (topDocs.length : ℚ) := by positivity
    nlinarith
  · intro h10 h3
    rw [hrate, h10, h3]
    have hL : (fcands.length : ℚ) ≤ 3 := by
      rw [h3] at hlim
      exact_mod_cast hlim
    rw [show ((10 * 3 : ℕ) : ℚ) = 30 by norm_num]
    rw [show defaultEscalationConfig.min_fts_hit_rate = 1/10 from rfl]
    rw [div_le_iff₀ (by norm_num)]
    linarith

def docW : DocRow := ⟨0, [], 0⟩
def fcandW : SegCand := ⟨1, 0, 1, [], [], 0⟩

/-- Witness for C10 with a fully populated default prefilter. -/
theorem fts_hit_rate_bound_witness :
    (computeProbeSignals [] (List.replicate 10 docW) [] (List.replicate 3 fcandW)
        defaultSmartConfig).fts_hit_rate ≤ defaultEscalationConfig.min_fts_hit_rate :=
  (fts_hit_rate_bound [] (List.replicate 10 docW) [] (List.replicate 3 fcandW)
      defaultSmartConfig (by decide) (by decide) (by decide)).2 (by decide) rfl

/-! ### C5 — zero-candidate probe short-circuit and its routing -/

/-- **C5 (amended)**: when the document prefilter returns zero candidates, the
probe short-circuits to the degenerate signals (`avg_vec_sim = 0`,
`fts_hit_rate = 0`, `top_doc_share = 1`, `unique_docs = 0`) while the two
pattern flags are still computed from the raw query text; under the default
router weights and threshold 0.5 this routes LONG exactly when the
temporal/comparison flag is set (the degenerate `top_doc_share = 1` alone
already scores 0.8 ≥ 0.5, so with both flags false it routes SHORT). -/
theorem probe_zero_docs_signals_and_route (query : List Char)
    (vcands fcands : List SegCand) (cfg : SmartRoutingConfig) :
    (computeProbeSignals query [] vcands fcands cfg).avg_vec_sim = 0 ∧
    (computeProbeSignals query [] vcands fcands cfg).fts_hit_rate = 0 ∧
    (computeProbeSignals query [] vcands fcands cfg).top_doc_share = 1 ∧
    (computeProbeSignals query [] vcands fcands cfg).unique_docs = 0 ∧
    (computeProbeSignals query [] vcands fcands cfg).has_quotes_or_ids =
      (detectQueryPatterns query).1 ∧
    (computeProbeSignals query [] vcands fcands cfg).has_compare_temporal_conditions =
      (detectQueryPatterns query).2 ∧
    (routeDecision (computeProbeSignals query [] vcands fcands cfg) defaultRouterConfig =
        Path.LONG ↔ (detectQueryPatterns query).2 = true) := by
  refine ⟨rfl, rfl, rfl, rfl, rfl, rfl, ?_⟩
  have hsig : computeProbeSignals query [] vcands fcands cfg =
      { avg_vec_sim := 0, fts_hit_rate := 0, top_doc_share := 1, unique_docs := 0,
        has_quotes_or_ids := (detectQueryPatterns query).1,
        has_compare_temporal_conditions := (detectQueryPatterns query).2,
        doc_counts := [], total_candidates := 0, vector_candidates := 0,
        fts_candidates := 0 } := rfl
  rw [hsig]
  cases hq : (detectQueryPatterns query).1 <;> cases ht : (detectQueryPatterns query).2 <;>
    simp [routeDecision, computeRoutingScore, defaultRouterConfig] <;> norm_num

/-- **C5 counterexample**: for the query `"hello"` (both pattern flags false)
with an empty prefilter, the degenerate signals score `0.8 ≥ 0.5` under the
default weights, so the router selects SHORT — not LONG as the claim states. -/
theorem probe_zero_docs_routes_short_counterexample :
    routeDecision (computeProbeSignals "hello".toList [] [] [] defaultSmartConfig)
        defaultRouterConfig = Path.SHORT ∧
    detectQueryPatterns "hello".toList = (false, false) := by
  constructor
  · have hdet : detectQueryPatterns "hello".toList = (false, false) := by decide
    have hsig : computeProbeSignals "hello".toList [] [] [] defaultSmartConfig =
        { avg_vec_sim := 0, fts_hit_rate := 0, top_doc_share := 1, unique_docs := 0,
          has_quotes_or_ids := false, has_compare_temporal_conditions := false,
          doc_counts := [], total_candidates := 0, vector_candidates := 0,
          fts_candidates := 0 } := by
      rw [show computeProbeSignals "hello".toList [] [] [] defaultSmartConfig =
          { avg_vec_sim := 0, fts_hit_rate := 0, top_doc_share := 1, unique_docs := 0,
            has_quotes_or_ids := (detectQueryPatterns "hello".toList).1,
            has_compare_temporal_conditions := (detectQueryPatterns "hello".toList).2,
            doc_counts := [], total_candidates := 0, vector_candidates := 0,
            fts_candidates := 0 } from rfl, hdet]
    rw [hsig]
    unfold routeDecision
    rw [if_pos (by norm_num [computeRoutingScore, defaultRouterConfig])]
  · decide

/-! ### C3 — escalation OR-semantics -/

/-- **C3 (amended)**: the escalation decision is exactly the disjunction of
the listed conditions, where the conflict heuristic counts *distinct* words
of the fixed indicator set occurring as substrings of the lowercased context
(each word counted at most once), not total occurrences.  Hence an input
satisfying exactly one condition escalates and one satisfying none does not. -/
theorem escalation_or_semantics (r : ShortPathResult) (signals : ProbeSignals)
    (cfg : SmartRoutingConfig) :
    shouldEscalateFromShort r signals cfg = true ↔
      (r.success = false ∨ r.context = none ∨
       r.debug_info.total_segments < cfg.escalation.min_strong_segments ∨
       r.debug_info.total_docs > cfg.escalation.max_distinct_docs ∨
       signals.avg_vec_sim < cfg.escalation.min_avg_vec_sim ∨
       signals.fts_hit_rate < cfg.escalation.min_fts_hit_rate ∨
       2 ≤ conflictIndicatorCount (contextTextOf r)) := by
  obtain ⟨ans, ctxOpt, dbg, succ, err⟩ := r
  cases succ
  · cases ctxOpt <;> simp [shouldEscalateFromShort]
  · cases ctxOpt
    · simp [shouldEscalateFromShort]
    · -- success, some context: reasons list length vs disjunction
      simp only [shouldEscalateFromShort, contextTextOf, escalationReasons,
        decide_eq_true_eq, List.length_append]
      simp only [Bool.true_eq_false, Option.some_ne_none, false_or]
      split_ifs <;> simp_all

/-- **C3 counterexample**: the context `"but and but"` contains two
occurrences of words from the fixed set ("but" twice), so the claim's
≥2-occurrences condition holds and every other condition fails, yet the code
counts only one distinct indicator and does not escalate. -/
theorem escalation_occurrences_counterexample :
    specConflictOccurrences "but and but".toList = 2 ∧
    shouldEscalateFromShort
      ⟨"ans".toList, some ⟨['q'], "but and but".toList, []⟩, ⟨1, 2, true, 11⟩, true, none⟩
      ⟨7/10, 1/5, 1, 1, false, false, [], 0, 0, 0⟩ defaultSmartConfig = false ∧
    conflictIndicatorCount "but and but".toList = 1 ∧
    -- the remaining escalation conditions are all unsatisfied:
    ¬ ((2 : ℕ) < defaultSmartConfig.escalation.min_strong_segments) ∧
    ¬ ((1 : ℕ) > defaultSmartConfig.escalation.max_distinct_docs) ∧
    ¬ ((7/10 : ℚ) < defaultSmartConfig.escalation.min_avg_vec_sim) ∧
    ¬ ((1/5 : ℚ) < defaultSmartConfig.escalation.min_fts_hit_rate) := by
  refine ⟨by decide, by decide, by decide, by decide, by decide, ?_, ?_⟩ <;>
    norm_num [defaultSmartConfig, defaultEscalationConfig]

/-! ### C7 — snippet citation format -/

/-- **C7**: the multi-document and SHORT-path grouping snippet format agrees
with the spec's `[§<ordinal>] <segment text>` exactly, but
`_format_single_document_context` emits `[ยง<ordinal>] <text>` (the two Thai
characters U+0E22 U+0E07, mojibake of `§`), shown at a concrete input. -/
theorem snippet_format_sites :
    (∀ (o : ℤ) (t : List Char), groupSnippet o t = specCitationSnippet o t) ∧
    formatSingleDocumentContext [⟨1, 3, "foo".toList, 0, none, none⟩] "T".toList =
      ('{' :: ("T".toList ++ ['}'])) ++ '\n' :: singleDocSnippet 3 "foo".toList ∧
    formatSingleDocumentContext [⟨1, 3, "foo".toList, 0, none, none⟩] "T".toList ≠
      ('{' :: ("T".toList ++ ['}'])) ++ '\n' :: specCitationSnippet 3 "foo".toList :=
  ⟨fun _ _ => rfl, by decide, by decide⟩

/-! ### C8 — JSON repair -/

/-- **C8 (amended)**: `ensure_json_validity` is total and returns either the
input (only when it already parses), the bracket-repaired string (only when
that parses), or the fixed-shape fallback object — whose contents are *not*
re-validated, so the output is valid JSON except possibly on the fallback
path. -/
theorem ensure_json_validity_result_shape (s : List Char) :
    (ensureJsonValidity s = s ∧ validJson s = true) ∨
    (ensureJsonValidity s = repairCandidate s ∧ validJson (repairCandidate s) = true) ∨
    ensureJsonValidity s = jsonFallback s := by
  unfold ensureJsonValidity
  split_ifs with h1 h2
  · exact Or.inl ⟨rfl, h1⟩
  · exact Or.inr (Or.inl ⟨rfl, h2⟩)
  · exact Or.inr (Or.inr rfl)

/-- **C8 counterexample**: for the input `{"a": \ b}` (a backslash where a
value should be) both the parse and the bracket repair fail, and the fallback
embeds the backslash into a JSON string literal as the invalid escape `\ `,
so the returned string does not parse as JSON. -/
theorem ensure_json_validity_invalid_output_counterexample :
    ensureJsonValidity "\x7b\"a\": \\ b\x7d".toList =
      jsonFallback "\x7b\"a\": \\ b\x7d".toList ∧
    validJson (ensureJsonValidity "\x7b\"a\": \\ b\x7d".toList) = false := by
  constructor
  · decide
  · decide

/-! ### C9 — context truncation idempotence -/

theorem truncate_noop_of_le (b : ContextBundle) (cfg : SmartRoutingConfig)
    (h : b.context_text.length ≤ cfg.max_context_chars) :
    truncateContextByTokens b cfg = b := by
  unfold truncateContextByTokens
  rw [if_pos h]

/-- **C9 (amended)**: truncation is a no-op on bundles whose `context_text`
is within the character budget, and re-truncating is a no-op whenever the
first truncation's output is within the budget; full idempotence fails in
general (see the counterexample). -/
theorem truncate_context_within_budget_noop (b : ContextBundle) (cfg : SmartRoutingConfig) :
    (b.context_text.length ≤ cfg.max_context_chars → truncateContextByTokens b cfg = b) ∧
    ((truncateContextByTokens b cfg).context_text.length ≤ cfg.max_context_chars →
      truncateContextByTokens (truncateContextByTokens b cfg) cfg =
        truncateContextByTokens b cfg) :=
  ⟨truncate_noop_of_le b cfg, truncate_noop_of_le (truncateContextByTokens b cfg) cfg⟩

def smallBundle : ContextBundle := ⟨['q'], ['x'], []⟩

/-- Witness for C9 at a concrete in-budget bundle. -/
theorem truncate_context_within_budget_noop_witness :
    truncateContextByTokens smallBundle defaultSmartConfig = smallBundle ∧
    truncateContextByTokens (truncateContextByTokens smallBundle defaultSmartConfig)
        defaultSmartConfig = truncateContextByTokens smallBundle defaultSmartConfig :=
  ⟨(truncate_context_within_budget_noop smallBundle defaultSmartConfig).1 (by decide),
   (truncate_context_within_budget_noop smallBundle defaultSmartConfig).2 (by decide)⟩

/-- The bundle breaking idempotence: two 50-character titles whose blocks hold
only empty snippets and one short-titled block with one real snippet.  With a
100-character budget the title overhead (113) exceeds the budget; the
zero-share blocks get budget 0 and keep their empty snippets while the real
block is dropped, leaving 108 > 100 characters; re-truncating then drops
everything. -/
def overBundle : ContextBundle :=
  ⟨['q'],
   formatContextText
     [⟨1, List.replicate 50 'A', [[], []]⟩, ⟨2, List.replicate 50 'B', [[], []]⟩,
      ⟨3, ['C'], [['x','y','z']]⟩],
   [⟨1, List.replicate 50 'A', [[], []]⟩, ⟨2, List.replicate 50 'B', [[], []]⟩,
    ⟨3, ['C'], [['x','y','z']]⟩]⟩

def smallCfg : SmartRoutingConfig := { defaultSmartConfig with max_context_chars := 100 }

set_option maxRecDepth 4000 in
/-- **C9 counterexample**: truncating `overBundle` twice with the same
100-character budget does not reproduce the once-truncated bundle. -/
theorem truncate_not_idempotent_counterexample :
    truncateContextByTokens (truncateContextByTokens overBundle smallCfg) smallCfg ≠
      truncateContextByTokens overBundle smallCfg := by decide

/-! ### Helper lemmas: first-occurrence keys and dict lookups -/

theorem mem_firstKeys {α : Type} [DecidableEq α] {a : α} :
    ∀ l : List α, a ∈ firstKeys l ↔ a ∈ l := by
  intro l
  induction l with
  | nil => simp [firstKeys]
  | cons b l ih =>
    simp only [firstKeys, List.mem_cons, List.mem_filter, decide_eq_true_eq]
    constructor
    · rintro (rfl | ⟨h1, _⟩)
      · exact Or.inl rfl
      · exact Or.inr (ih.mp h1)
    · rintro (rfl | h)
      · exact Or.inl rfl
      · by_cases hab : a = b
        · exact Or.inl hab
        · exact Or.inr ⟨ih.mpr h, by simpa using hab⟩

theorem nodup_firstKeys {α : Type} [DecidableEq α] : ∀ l : List α, (firstKeys l).Nodup := by
  intro l
  induction l with
  | nil => simp [firstKeys]
  | cons b l ih =>
    simp only [firstKeys]
    refine List.Nodup.cons ?_ (ih.filter _)
    intro hmem
    have h2 := (List.mem_filter.mp hmem).2
    simp at h2

theorem dictGetAux_of_not_mem (sid : ℤ) :
    ∀ (hits : List SearchHit), sid ∉ hits.map (fun h => h.id) →
      ∀ (i : ℕ) (acc : Option (ℕ × SearchHit)), dictGetAux sid i hits acc = acc := by
  intro hits
  induction hits with
  | nil => intro _ i acc; rfl
  | cons x rest ih =>
    intro hmem i acc
    simp only [List.map_cons, List.mem_cons, not_or] at hmem
    simp only [dictGetAux]
    rw [if_neg (fun h => hmem.1 h.symm)]
    exact ih hmem.2 (i + 1) acc

theorem dictGetAux_isSome_mono (sid : ℤ) :
    ∀ (hits : List SearchHit) (i : ℕ) (acc : Option (ℕ × SearchHit)),
      acc.isSome → (dictGetAux sid i hits acc).isSome := by
  intro hits
  induction hits with
  | nil => intro i acc h; exact h
  | cons x rest ih =>
    intro i acc h
    simp only [dictGetAux]
    apply ih
    split
    · rfl
    · exact h

theorem dictGetAux_isSome_of_mem (sid : ℤ) :
    ∀ (hits : List SearchHit), sid ∈ hits.map (fun h => h.id) →
      ∀ (i : ℕ) (acc : Option (ℕ × SearchHit)), (dictGetAux sid i hits acc).isSome := by
  intro hits
  induction hits with
  | nil => intro h; simp at h
  | cons x rest ih =>
    intro hmem i acc
    simp only [List.map_cons, List.mem_cons] at hmem
    by_cases hx : sid ∈ rest.map (fun h => h.id)
    · exact ih hx (i + 1) _
    · have hxid : sid = x.id := hmem.resolve_right hx
      simp only [dictGetAux]
      apply dictGetAux_isSome_mono
      rw [if_pos hxid.symm]
      rfl

theorem dictGetAux_id (sid : ℤ) :
    ∀ (hits : List SearchHit) (i : ℕ) (acc : Option (ℕ × SearchHit)),
      (∀ (k : ℕ) (h : SearchHit), acc = some (k, h) → h.id = sid) →
      ∀ (k : ℕ) (h : SearchHit), dictGetAux sid i hits acc = some (k, h) → h.id = sid := by
  intro hits
  induction hits with
  | nil => intro i acc hacc; exact hacc
  | cons x rest ih =>
    intro i acc hacc
    simp only [dictGetAux]
    apply ih
    intro k h heq
    split at heq
    · next hxid =>
      have hp : (i + 1, x) = (k, h) := Option.some.inj heq
      have hx : x = h := congrArg Prod.snd hp
      exact hx ▸ hxid
    · exact hacc k h heq

theorem dictGetAux_of_getElem (sid : ℤ) :
    ∀ (hits : List SearchHit), (hits.map (fun h => h.id)).Nodup →
      ∀ (j : ℕ) (h : SearchHit), hits[j]? = some h → h.id = sid →
      ∀ (i : ℕ) (acc : Option (ℕ × SearchHit)),
        dictGetAux sid i hits acc = some (i + j + 1, h) := by
  intro hits
  induction hits with
  | nil => intro _ j h hj; simp at hj
  | cons x rest ih =>
    intro hnd j h hj hid i acc
    simp only [List.map_cons, List.nodup_cons] at hnd
    match j, hj with
    | 0, hj =>
      have hx : x = h := by simpa using hj
      subst hx
      simp only [dictGetAux]
      rw [if_pos hid]
      have hnotmem : sid ∉ rest.map (fun h => h.id) := by
        rw [← hid]; exact hnd.1
      rw [dictGetAux_of_not_mem sid rest hnotmem]
    | Nat.succ j, hj =>
      have hj' : rest[j]? = some h := by simpa using hj
      have hmemh : h ∈ rest := by
        have := List.getElem?_eq_some_iff.mp hj'
        obtain ⟨hlt, hget⟩ := this
        exact hget ▸ List.getElem_mem hlt
      have hmem : sid ∈ rest.map (fun h => h.id) := by
        rw [← hid]
        exact List.mem_map_of_mem _ hmemh
      have hxne : ¬ (x.id = sid) := fun hxx => hnd.1 (hxx ▸ hmem)
      simp only [dictGetAux]
      rw [if_neg hxne]
      rw [ih hnd.2 j h hj' hid (i + 1) acc]
      have e : i + 1 + j + 1 = i + (j + 1) + 1 := by omega
      rw [e]

theorem dictGet_id {hits : List SearchHit} {sid : ℤ} {k : ℕ} {h : SearchHit}
    (heq : dictGet hits sid = some (k, h)) : h.id = sid :=
  dictGetAux_id sid hits 0 none (fun _ _ hh => by cases hh) k h heq

theorem rankOf_of_not_mem {hits : List SearchHit} {sid : ℤ}
    (h : sid ∉ hits.map (fun x => x.id)) : rankOf hits sid = hits.length + 1 := by
  unfold rankOf dictGet
  rw [dictGetAux_of_not_mem sid hits h]

theorem rankOf_of_getElem {hits : List SearchHit} {sid : ℤ}
    (hnd : (hits.map (fun x => x.id)).Nodup) {j : ℕ} {h : SearchHit}
    (hj : hits[j]? = some h) (hid : h.id = sid) : rankOf hits sid = j + 1 := by
  unfold rankOf dictGet
  rw [dictGetAux_of_getElem sid hits hnd j h hj hid 0 none]
  simp

theorem fuseOne_isSome {vres tres : List SearchHit} (wv wt : ℚ) {sid : ℤ}
    (hmem : sid ∈ vres.map (fun h => h.id) ∨ sid ∈ tres.map (fun h => h.id)) :
    ∃ r, fuseOne vres tres wv wt sid = some r ∧ r.hit.id = sid := by
  cases hv : dictGet vres sid with
  | some p =>
    obtain ⟨k, h⟩ := p
    refine ⟨⟨h, rrfScore wv wt (rankOf vres sid) (rankOf tres sid),
      rankOf vres sid, rankOf tres sid⟩, ?_, dictGet_id hv⟩
    simp only [fuseOne, hv, Option.map_some']
    rfl
  | none =>
    have htm : sid ∈ tres.map (fun h => h.id) := by
      rcases hmem with hm | hm
      · have hsome := dictGetAux_isSome_of_mem sid vres hm 0 none
        rw [show dictGetAux sid 0 vres none = dictGet vres sid from rfl, hv] at hsome
        simp at hsome
      · exact hm
    have hsome := dictGetAux_isSome_of_mem sid tres htm 0 none
    rw [show dictGetAux sid 0 tres none = dictGet tres sid from rfl] at hsome
    cases htq : dictGet tres sid with
    | none => rw [htq] at hsome; simp at hsome
    | some q =>
      obtain ⟨k, h⟩ := q
      refine ⟨⟨h, rrfScore wv wt (rankOf vres sid) (rankOf tres sid),
        rankOf vres sid, rankOf tres sid⟩, ?_, dictGet_id htq⟩
      simp only [fuseOne, hv, htq, Option.map_some', Option.map_none']
      rfl

theorem fuseOne_eq_some {vres tres : List SearchHit} {wv wt : ℚ} {sid : ℤ} {r : FusedResult}
    (heq : fuseOne vres tres wv wt sid = some r) :
    r.hit.id = sid ∧ r.vector_rank = rankOf vres sid ∧ r.text_rank = rankOf tres sid ∧
      r.rrf_score = rrfScore wv wt (rankOf vres sid) (rankOf tres sid) := by
  unfold fuseOne at heq
  cases hv : dictGet vres sid with
  | some p =>
    obtain ⟨k, h⟩ := p
    rw [hv] at heq
    simp only [Option.map_some'] at heq
    have hr : r = ⟨h, rrfScore wv wt (rankOf vres sid) (rankOf tres sid),
        rankOf vres sid, rankOf tres sid⟩ := by
      have : (Option.orElse (some h) fun _ => (dictGet tres sid).map Prod.snd) = some h := rfl
      rw [this] at heq
      exact (Option.some.injEq .. ▸ heq).symm
    subst hr
    exact ⟨dictGet_id hv, rfl, rfl, rfl⟩
  | none =>
    rw [hv] at heq
    simp only [Option.map_none'] at heq
    cases htq : dictGet tres sid with
    | none =>
      rw [htq] at heq
      simp only [Option.map_none'] at heq
      cases heq
    | some q =>
      obtain ⟨k, h⟩ := q
      rw [htq] at heq
      simp only [Option.map_some'] at heq
      have hr : r = ⟨h, rrfScore wv wt (rankOf vres sid) (rankOf tres sid),
          rankOf vres sid, rankOf tres sid⟩ := by
        have : (Option.orElse none fun _ => some h) = some h := rfl
        rw [this] at heq
        exact (Option.some.injEq .. ▸ heq).symm
      subst hr
      exact ⟨dictGet_id htq, rfl, rfl, rfl⟩

theorem filterMap_map_eq_self {α β : Type} (f : α → Option β) (g : β → α) :
    ∀ l : List α, (∀ a ∈ l, ∃ b, f a = some b ∧ g b = a) →
      (l.filterMap f).map g = l := by
  intro l
  induction l with
  | nil => intro _; rfl
  | cons a l ih =>
    intro hl
    obtain ⟨b, hb, hgb⟩ := hl a (List.mem_cons_self a l)
    simp only [List.filterMap_cons, hb, List.map_cons, hgb]
    rw [ih (fun x hx => hl x (List.mem_cons_of_mem a hx))]

theorem fusedPre_map_id (vres tres : List SearchHit) (wv wt : ℚ) :
    (fusedPre vres tres wv wt).map (fun r => r.hit.id) =
      firstKeys ((vres.map (fun h => h.id)) ++ (tres.map (fun h => h.id))) := by
  unfold fusedPre
  apply filterMap_map_eq_self
  intro sid hsid
  have hmem : sid ∈ vres.map (fun h => h.id) ∨ sid ∈ tres.map (fun h => h.id) := by
    have := (mem_firstKeys _).mp hsid
    simpa using this
  obtain ⟨r, hr, hid⟩ := fuseOne_isSome wv wt hmem
  exact ⟨r, hr, hid⟩

/-! ### C1 — RRF fusion totality, formula, positivity, sort -/

/-- **C1**: for input hit lists with distinct segment ids (database rows keyed
by primary key), the fusion returns exactly one result per id in the union of
the two lists' ids; each result's vector rank is its 1-based position in
`vectorHits` (or `len+1` if absent) and likewise for the text rank; the
`rrf_score` is `wv/(60+vector_rank) + wt/(60+text_rank)`, strictly positive
for positive weights; and the output is sorted non-increasing by `rrf_score`. -/
theorem hybrid_rerank_rrf_spec (vres tres : List SearchHit) (wv wt : ℚ)
    (hv : (vres.map (fun h => h.id)).Nodup) (ht : (tres.map (fun h => h.id)).Nodup) :
    (((hybridRerank vres tres wv wt).map (fun r => r.hit.id)).Nodup) ∧
    (∀ sid : ℤ, (sid ∈ (hybridRerank vres tres wv wt).map (fun r => r.hit.id)) ↔
      (sid ∈ vres.map (fun h => h.id) ∨ sid ∈ tres.map (fun h => h.id))) ∧
    (∀ r ∈ hybridRerank vres tres wv wt,
      ((r.hit.id ∉ vres.map (fun h => h.id) ∧ r.vector_rank = vres.length + 1) ∨
        (∃ j : Fin vres.length, (vres.get j).id = r.hit.id ∧ r.vector_rank = (j : ℕ) + 1)) ∧
      ((r.hit.id ∉ tres.map (fun h => h.id) ∧ r.text_rank = tres.length + 1) ∨
        (∃ j : Fin tres.length, (tres.get j).id = r.hit.id ∧ r.text_rank = (j : ℕ) + 1)) ∧
      r.rrf_score = wv / (60 + (r.vector_rank : ℚ)) + wt / (60 + (r.text_rank : ℚ)) ∧
      (0 < wv → 0 < wt → 0 < r.rrf_score)) ∧
    List.Sorted scoreOrder (hybridRerank vres tres wv wt) := by
  have hperm : List.Perm (hybridRerank vres tres wv wt) (fusedPre vres tres wv wt) :=
    List.perm_insertionSort scoreOrder _
  have hids := fusedPre_map_id vres tres wv wt
  refine ⟨?_, ?_, ?_, List.sorted_insertionSort scoreOrder _⟩
  · have hnd : ((fusedPre vres tres wv wt).map (fun r => r.hit.id)).Nodup := by
      rw [hids]; exact nodup_firstKeys _
    exact ((hperm.map (fun r => r.hit.id)).nodup_iff).mpr hnd
  · intro sid
    rw [(hperm.map (fun r => r.hit.id)).mem_iff, hids]
    rw [mem_firstKeys]
    exact List.mem_append
  · intro r hr
    have hrpre : r ∈ fusedPre vres tres wv wt := hperm.mem_iff.mp hr
    obtain ⟨sid, hsid, hfr⟩ := List.mem_filterMap.mp hrpre
    obtain ⟨hid, hvr, htr, hsc⟩ := fuseOne_eq_some hfr
    have hscore : r.rrf_score = wv / (60 + (r.vector_rank : ℚ)) + wt / (60 + (r.text_rank : ℚ)) := by
      rw [hsc, hvr, htr]; rfl
    refine ⟨?_, ?_, hscore, ?_⟩
    · by_cases hm : r.hit.id ∈ vres.map (fun h => h.id)
      · right
        obtain ⟨h, hmem, hhid⟩ := List.mem_map.mp hm
        obtain ⟨j, hj⟩ := List.mem_iff_get.mp hmem
        refine ⟨j, by rw [hj, hhid], ?_⟩
        have hj' : vres[(j : ℕ)]? = some h := by
          rw [List.getElem?_eq_getElem j.isLt]
          exact congrArg some (by rw [← hj]; rfl)
        rw [hvr, rankOf_of_getElem hv hj' (by rw [hhid, hid])]
      · left
        exact ⟨hm, by rw [hvr, rankOf_of_not_mem (hid ▸ hm)]⟩
    · by_cases hm : r.hit.id ∈ tres.map (fun h => h.id)
      · right
        obtain ⟨h, hmem, hhid⟩ := List.mem_map.mp hm
        obtain ⟨j, hj⟩ := List.mem_iff_get.mp hmem
        refine ⟨j, by rw [hj, hhid], ?_⟩
        have hj' : tres[(j : ℕ)]? = some h := by
          rw [List.getElem?_eq_getElem j.isLt]
          exact congrArg some (by rw [← hj]; rfl)
        rw [htr, rankOf_of_getElem ht hj' (by rw [hhid, hid])]
      · left
        exact ⟨hm, by rw [htr, rankOf_of_not_mem (hid ▸ hm)]⟩
    · intro hwv hwt
      rw [hscore]
      have h1 : (0 : ℚ) < wv / (60 + (r.vector_rank : ℚ)) := div_pos hwv (by positivity)
      have h2 : (0 : ℚ) < wt / (60 + (r.text_rank : ℚ)) := div_pos hwt (by positivity)
      linarith

def wHit : SearchHit := ⟨5, 20, 1, [], [], 0⟩

/-- Witness for C1 at a concrete one-element input. -/
theorem hybrid_rerank_rrf_spec_witness :
    (((hybridRerank [wHit] [] 1 1).map (fun r => r.hit.id)).Nodup) ∧
    List.Sorted scoreOrder (hybridRerank [wHit] [] 1 1) :=
  ⟨(hybrid_rerank_rrf_spec [wHit] [] 1 1 (by decide) (by decide)).1,
   (hybrid_rerank_rrf_spec [wHit] [] 1 1 (by decide) (by decide)).2.2.2⟩

/-! ### C2 — dual presence and the A/C tie -/

def hitA : SearchHit := ⟨1, 10, 1, ['a'], ['T','A'], 0⟩
def hitB : SearchHit := ⟨2, 11, 1, ['b'], ['T','B'], 0⟩
def hitC : SearchHit := ⟨3, 12, 1, ['c'], ['T','C'], 0⟩
def hitCtext : SearchHit := ⟨3, 12, 1, ['c'], ['T','C'], 0⟩
def hitD : SearchHit := ⟨4, 13, 1, ['d'], ['T','D'], 0⟩

/-- **C2 (amended)**: with `vectorHits = [A,B,C]`, `textHits = [C,D]` and
weights `0.5/0.5`, the fused ranking contains A, B, C, D exactly once, and by
the documented formula C's score `0.5/63 + 0.5/61` is exactly *equal* to A's
`0.5/61 + 0.5/63` (both `62/3843`), not strictly greater; in general, a
segment present in both lists strictly outscores a segment with the same
vector rank that is absent from the text list, whenever the text weight is
positive. -/
theorem rrf_dual_presence_scores :
    (((hybridRerank [hitA, hitB, hitC] [hitCtext, hitD] (1/2) (1/2)).map
        (fun r => r.hit.id)).Perm [1, 2, 3, 4]) ∧
    findScore (hybridRerank [hitA, hitB, hitC] [hitCtext, hitD] (1/2) (1/2)) 3 =
      some (62/3843) ∧
    findScore (hybridRerank [hitA, hitB, hitC] [hitCtext, hitD] (1/2) (1/2)) 1 =
      some (62/3843) ∧
    (∀ (wv wt : ℚ) (rv rt tlen : ℕ), 0 < wt → rt ≤ tlen →
      rrfScore wv wt rv (tlen + 1) < rrfScore wv wt rv rt) := by
  refine ⟨by decide, by decide, by decide, ?_⟩
  intro wv wt rv rt tlen hwt hle
  unfold rrfScore
  have h1 : (0 : ℚ) < 60 + (rt : ℚ) := by positivity
  have h2 : (60 : ℚ) + (rt : ℚ) < 60 + ((tlen + 1 : ℕ) : ℚ) := by
    push_cast
    have : (rt : ℚ) ≤ (tlen : ℚ) := by exact_mod_cast hle
    linarith
  have h3 := div_lt_div_of_pos_left hwt h1 h2
  linarith

/-- Witness for C2's general dual-presence dominance at concrete ranks. -/
theorem rrf_dual_presence_scores_witness :
    rrfScore 1 1 1 3 < rrfScore 1 1 1 2 :=
  rrf_dual_presence_scores.2.2.2 1 1 1 2 2 (by norm_num) (by norm_num)

/-- **C2 counterexample**: at the spec's own example the fused scores of C
(in both lists) and A (vector-only, rank 1) are exactly equal — `62/3843`
each — so C's score is *not* strictly greater than A's. -/
theorem rrf_tie_counterexample :
    findScore (hybridRerank [hitA, hitB, hitC] [hitCtext, hitD] (1/2) (1/2)) 3 =
      findScore (hybridRerank [hitA, hitB, hitC] [hitCtext, hitD] (1/2) (1/2)) 1 ∧
    findScore (hybridRerank [hitA, hitB, hitC] [hitCtext, hitD] (1/2) (1/2)) 3 =
      some (62/3843) := by
  constructor
  · decide
  · decide

/-! ### C6 — grouping caps and first-appearance order -/

theorem groupStep_snippets_le (maxSnip : ℕ) (gs : List DocGroup) (r : FusedResult)
    (hgs : ∀ g ∈ gs, g.snippets.length ≤ maxSnip) :
    ∀ g ∈ groupStep maxSnip gs r, g.snippets.length ≤ maxSnip := by
  intro g hg
  unfold groupStep at hg
  obtain ⟨g0, hg0, rfl⟩ := List.mem_map.mp hg
  have hle : g0.snippets.length ≤ maxSnip := by
    rcases (by exact hg0 :
        g0 ∈ (if gs.any (fun g => g.doc_id = r.hit.document_id) then gs
          else gs ++ [⟨r.hit.document_id, r.hit.title, []⟩])) with hg0'
    by_cases hany : gs.any (fun g => g.doc_id = r.hit.document_id)
    · rw [if_pos hany] at hg0'
      exact hgs g0 hg0'
    · rw [if_neg hany] at hg0'
      rcases List.mem_append.mp hg0' with hx | hx
      · exact hgs g0 hx
      · have : g0 = ⟨r.hit.document_id, r.hit.title, []⟩ := by simpa using hx
        subst this
        simp
  by_cases hcond : (g0.doc_id = r.hit.document_id ∧ g0.snippets.length < maxSnip)
  · rw [if_pos hcond]
    simpa using hcond.2
  · rw [if_neg hcond]
    exact hle

theorem foldl_groupStep_snippets_le (maxSnip : ℕ) :
    ∀ (rs : List FusedResult) (gs : List DocGroup),
      (∀ g ∈ gs, g.snippets.length ≤ maxSnip) →
      ∀ g ∈ rs.foldl (groupStep maxSnip) gs, g.snippets.length ≤ maxSnip := by
  intro rs
  induction rs with
  | nil => intro gs h; exact h
  | cons r rest ih =>
    intro gs h
    exact ih _ (groupStep_snippets_le maxSnip gs r h)

theorem groupStep_keys (maxSnip : ℕ) (gs : List DocGroup) (r : FusedResult) :
    (groupStep maxSnip gs r).map (fun g => g.doc_id) =
      if r.hit.document_id ∈ gs.map (fun g => g.doc_id) then gs.map (fun g => g.doc_id)
      else gs.map (fun g => g.doc_id) ++ [r.hit.document_id] := by
  unfold groupStep
  have hmapu : ∀ l : List DocGroup,
      ((l.map (fun g =>
        if g.doc_id = r.hit.document_id ∧ g.snippets.length < maxSnip then
          { g with snippets := g.snippets ++ [groupSnippet r.hit.segment_ordinal r.hit.text] }
        else g)).map (fun g => g.doc_id)) = l.map (fun g => g.doc_id) := by
    intro l
    rw [List.map_map]
    apply List.map_congr_left
    intro g _
    by_cases hc : (g.doc_id = r.hit.document_id ∧ g.snippets.length < maxSnip)
    · simp [hc]
    · simp [hc]
  by_cases hany : gs.any (fun g => g.doc_id = r.hit.document_id)
  · have hmem : r.hit.document_id ∈ gs.map (fun g => g.doc_id) := by
      obtain ⟨g, hg, hgid⟩ := List.any_eq_true.mp hany
      exact List.mem_map.mpr ⟨g, hg, by simpa using hgid⟩
    rw [if_pos hany, if_pos hmem, hmapu]
  · have hmem : r.hit.document_id ∉ gs.map (fun g => g.doc_id) := by
      intro hmem
      obtain ⟨g, hg, hgid⟩ := List.mem_map.mp hmem
      exact hany (List.any_eq_true.mpr ⟨g, hg, by simpa using hgid⟩)
    rw [if_neg hany, if_neg hmem, hmapu]
    simp

theorem foldl_groupStep_keys (maxSnip : ℕ) :
    ∀ (rs : List FusedResult) (gs : List DocGroup),
      (rs.foldl (groupStep maxSnip) gs).map (fun g => g.doc_id) =
        accKeys (gs.map (fun g => g.doc_id)) (rs.map (fun r => r.hit.document_id)) := by
  intro rs
  induction rs with
  | nil => intro gs; rfl
  | cons r rest ih =>
    intro gs
    simp only [List.foldl_cons, List.map_cons, accKeys]
    rw [ih]
    congr 1
    rw [groupStep_keys]

theorem accKeys_eq (ds : List ℤ) : ∀ ks : List ℤ,
    accKeys ks ds = ks ++ (firstKeys ds).filter (fun d => decide (d ∉ ks)) := by
  induction ds with
  | nil => intro ks; simp [accKeys, firstKeys]
  | cons d ds ih =>
    intro ks
    simp only [accKeys, firstKeys]
    rw [ih]
    by_cases hd : d ∈ ks
    · rw [if_pos hd]
      congr 1
      rw [List.filter_cons]
      rw [if_neg (by simpa using hd)]
      rw [List.filter_filter]
      apply List.filter_congr
      intro x _
      by_cases hx : x ∈ ks
      · simp [hx]
      · have hxd : x ≠ d := fun h => hx (by rw [h]; exact hd)
        simp [hx, hxd]
    · rw [if_neg hd]
      rw [List.filter_cons]
      rw [if_pos (by simpa using hd)]
      rw [List.filter_filter]
      rw [List.append_assoc, List.singleton_append]
      congr 2
      apply List.filter_congr
      intro x _
      by_cases h1 : x ∈ ks
      · have hxd : x ≠ d := fun h => hd (h ▸ h1)
        simp [h1, hxd, List.mem_append]
      · by_cases h2 : x = d
        · simp [h1, h2, List.mem_append]
        · simp [h1, h2, List.mem_append]

theorem map_filterMap_sublist {α β γ : Type} (f : α → Option β) (g : β → γ) (g' : α → γ)
    (hf : ∀ a b, f a = some b → g b = g' a) :
    ∀ l : List α, List.Sublist ((l.filterMap f).map g) (l.map g') := by
  intro l
  induction l with
  | nil => simp
  | cons a l ih =>
    cases hfa : f a with
    | none =>
      simp only [List.filterMap_cons, hfa, List.map_cons]
      exact ih.cons _
    | some b =>
      simp only [List.filterMap_cons, hfa, List.map_cons, hf a b hfa]
      exact ih.cons₂ _

/-- **C6**: grouping returns at most `maxDocs` blocks, each with at most
`maxSnippetsPerDoc` snippets and none with zero snippets, and the blocks'
document ids follow the first-appearance order of their documents in the
fused ranking (they form a sublist of the first-occurrence key sequence). -/
theorem group_by_document_caps (results : List FusedResult) (maxDocs maxSnip : ℕ) :
    (groupByDocument results maxDocs maxSnip).length ≤ maxDocs ∧
    (∀ b ∈ groupByDocument results maxDocs maxSnip,
        b.snippets.length ≤ maxSnip ∧ b.snippets ≠ []) ∧
    List.Sublist ((groupByDocument results maxDocs maxSnip).map (fun b => b.document_id))
      (firstKeys (results.map (fun r => r.hit.document_id))) := by
  have hdef : groupByDocument results maxDocs maxSnip =
      ((results.foldl (groupStep maxSnip) []).take maxDocs).filterMap (fun g =>
        if g.snippets.isEmpty then none
        else some (⟨g.doc_id, g.title, g.snippets⟩ : ContextBlock)) := rfl
  refine ⟨?_, ?_, ?_⟩
  · rw [hdef]
    calc (((results.foldl (groupStep maxSnip) []).take maxDocs).filterMap (fun g =>
          if g.snippets.isEmpty then none
          else some (⟨g.doc_id, g.title, g.snippets⟩ : ContextBlock))).length
        ≤ ((results.foldl (groupStep maxSnip) []).take maxDocs).length :=
          List.length_filterMap_le _ _
      _ ≤ maxDocs := List.length_take_le _ _
  · intro b hb
    rw [hdef] at hb
    obtain ⟨g, hgmem, hgb⟩ := List.mem_filterMap.mp hb
    by_cases hemp : g.snippets.isEmpty
    · rw [if_pos hemp] at hgb
      cases hgb
    · rw [if_neg hemp] at hgb
      obtain rfl := Option.some.inj hgb
      refine ⟨?_, by simpa [List.isEmpty_iff] using hemp⟩
      have hgg : g ∈ results.foldl (groupStep maxSnip) [] := List.mem_of_mem_take hgmem
      exact foldl_groupStep_snippets_le maxSnip results [] (by simp) g hgg
  · have hkeys : (results.foldl (groupStep maxSnip) []).map (fun g => g.doc_id) =
        firstKeys (results.map (fun r => r.hit.document_id)) := by
      rw [foldl_groupStep_keys]
      rw [show (([] : List DocGroup).map (fun g => g.doc_id)) = [] from rfl, accKeys_eq]
      simp
    rw [hdef]
    have hsub1 : List.Sublist
        ((((results.foldl (groupStep maxSnip) []).take maxDocs).filterMap (fun g =>
            if g.snippets.isEmpty then none
            else some (⟨g.doc_id, g.title, g.snippets⟩ : ContextBlock))).map
          (fun b => b.document_id))
        (((results.foldl (groupStep maxSnip) []).take maxDocs).map (fun g => g.doc_id)) := by
      apply map_filterMap_sublist
      intro g b hgb
      by_cases hemp : g.snippets.isEmpty
      · rw [if_pos hemp] at hgb; cases hgb
      · rw [if_neg hemp] at hgb
        obtain rfl := Option.some.inj hgb
        rfl
    have hsub2 : List.Sublist
        (((results.foldl (groupStep maxSnip) []).take maxDocs).map (fun g => g.doc_id))
        (firstKeys (results.map (fun r => r.hit.document_id))) := by
      rw [List.map_take, hkeys]
      exact List.take_sublist _ _
    exact hsub1.trans hsub2

def wRes : FusedResult := ⟨⟨7, 42, 1, ['t','x'], ['T','T'], 0⟩, 1, 1, 1⟩

/-- Witness for C6 at a concrete one-result input. -/
theorem group_by_document_caps_witness :
    (groupByDocument [wRes] 5 3).length ≤ 5 ∧
    ((⟨42, ['T','T'], [groupSnippet 1 ['t','x']]⟩ : ContextBlock).snippets.length ≤ 3 ∧
      (⟨42, ['T','T'], [groupSnippet 1 ['t','x']]⟩ : ContextBlock).snippets ≠ []) :=
  ⟨(group_by_document_caps [wRes] 5 3).1,
   (group_by_document_caps [wRes] 5 3).2.1 ⟨42, ['T','T'], [groupSnippet 1 ['t','x']]⟩
     (by decide)⟩

end RouterVerify
